import Mathlib

/-!
Shallow embedding of the execution-state tracking subsystem of
`src/backend/app/api/node_execution.py` (Flask resources over the in-memory
`execution_states` dictionary), together with proofs about the registry
operations described in the specification:

* `NodeStatusResource.put`            — "upsertNodeStatus"
* `ExecutionStateResource.put`        — "upsertExecutionState"
* `NodeDataTransferResource.post`     — "transferData"
* `ManualNodeInteractionResource.post`— "applyManualAction"

JSON-like dictionaries are modelled as association lists (`Obj`) whose
operations (`oget`, `oset`, `omerge`) mirror CPython dict lookup, item
assignment (replace in place, else append preserving insertion order) and
`dict.update`.  The wall clock is an explicit `Nat` parameter `t`: every
`datetime.now()` / `time.time()` call inside one request handler is modelled
as reading the same logical instant `t`.
-/

/-- A JSON-like value: string, number, or object (dictionary). -/
inductive Value where
  | vStr : String → Value
  | vNat : Nat → Value
  | vObj : List (String × Value) → Value
deriving Repr

/-- A JSON object / Python dict, as an association list in insertion order. -/
abbrev Obj := List (String × Value)

/-- Dictionary lookup (`d[k]` / `d.get(k)`): first binding of the key wins. -/
def oget (o : Obj) (k : String) : Option Value :=
  match o with
  | [] => none
  | (k1, v) :: rest => if k1 = k then some v else oget rest k

/-- Key membership test (`k in d`). -/
def ohas (o : Obj) (k : String) : Bool :=
  match o with
  | [] => false
  | (k1, _) :: rest => k1 = k || ohas rest k

/-- Item assignment (`d[k] = v`): replace the binding in place if the key is
present, otherwise append at the end (CPython insertion-order semantics). -/
def oset (o : Obj) (k : String) (v : Value) : Obj :=
  match o with
  | [] => [(k, v)]
  | (k1, v1) :: rest => if k1 = k then (k, v) :: rest else (k1, v1) :: oset rest k v

/-- `d.update(p)`: assign every binding of `p` into `o`, in `p`'s order. -/
def omerge (o : Obj) (p : Obj) : Obj :=
  p.foldl (fun acc kv => oset acc kv.1 kv.2) o

/-- The `for key, value in data.items(): if key != 'nodes': record[key] = value`
loop of `ExecutionStateResource.put`. -/
def omergeExceptNodes (o : Obj) (p : Obj) : Obj :=
  p.foldl (fun acc kv => if kv.1 = "nodes" then acc else oset acc kv.1 kv.2) o

/-- Read an object-valued entry, defaulting to the empty object.  Reachable
registry states only ever store objects at the places this is used. -/
def getDict (o : Obj) (k : String) : Obj :=
  match oget o k with
  | some (Value.vObj m) => m
  | _ => []

/-- The registry `execution_states`: a dict from executionId to a record. -/
abbrev Registry := Obj

/-- `execution_states[execution_id]` viewed as an object. -/
def getRec (reg : Registry) (execution_id : String) : Obj :=
  getDict reg execution_id

/-- `record['nodes']` viewed as an object. -/
def getNodes (r : Obj) : Obj :=
  getDict r "nodes"

/-- `nodes[node_id]` viewed as an object. -/
def getNodeObj (nodes : Obj) (node_id : String) : Obj :=
  getDict nodes node_id

/-- Little-endian decimal digits with structural fuel (kernel-computable). -/
def decDigitsCore (fuel n : Nat) : List Nat :=
  match fuel with
  | 0 => []
  | fuel + 1 => if n = 0 then [] else n % 10 :: decDigitsCore fuel (n / 10)

/-- Little-endian decimal digits of `n`. -/
def decDigits (n : Nat) : List Nat :=
  decDigitsCore n n

/-- Value of a little-endian decimal digit list (left inverse of `decDigits`). -/
def fromDigits (l : List Nat) : Nat :=
  l.foldr (fun d acc => d + 10 * acc) 0

/-- Decimal string of a natural number, as Python `str` / f-string formatting
produces for a nonnegative `int`. -/
def natDecimal (n : Nat) : String :=
  if n = 0 then "0" else String.mk ((decDigits n).reverse.map Nat.digitChar)

/-- Model of `datetime.now().isoformat()` at logical instant `t`. -/
def isoformat (t : Nat) : String :=
  "ts-" ++ natDecimal t

/-- Model of Python `str.lower()` (sufficient for the ASCII action names the
manual-interaction handler compares against). -/
def strLower (s : String) : String :=
  String.mk (s.data.map Char.toLower)

/-- Result of one request handler: a JSON body, or an error status + message. -/
inductive ApiResult where
  | ok : Value → ApiResult
  | err : Nat → String → ApiResult
deriving Repr

/-- `data.get('status') in ['completed', 'failed']`. -/
def completedOrFailed (data : Obj) : Bool :=
  match oget data "status" with
  | some (Value.vStr s) => s = "completed" || s = "failed"
  | _ => false

/-- The execution record created on the lazy-creation path of
`NodeStatusResource.put` (lines 64-70 of `node_execution.py`). -/
def freshExec (execution_id : String) (t : Nat) : Obj :=
  [("executionId", Value.vStr execution_id),
   ("status", Value.vStr "running"),
   ("startTime", Value.vStr (isoformat t)),
   ("nodes", Value.vObj [])]

/-- `if execution_id not in execution_states: execution_states[execution_id] = {...}`. -/
def ensureExec (t : Nat) (reg : Registry) (execution_id : String) : Registry :=
  if ohas reg execution_id then reg
  else oset reg execution_id (Value.vObj (freshExec execution_id t))

/-- `NodeStatusResource.put` (PUT `/executions/<id>/nodes/<id>`), the
"upsertNodeStatus" operation of the spec.  Transcribed from lines 46-91 of
`node_execution.py`. -/
def NodeStatusResource.put (t : Nat) (reg : Registry)
    (execution_id node_id : String) (data : Obj) : ApiResult × Registry :=
  if ohas data "status" then
    let reg1 := ensureExec t reg execution_id
    let r := getRec reg1 execution_id
    let nodes := getNodes r
    let node :=
      if ohas nodes node_id then
        -- update existing node: node_data.update(data); stamp lastUpdated after
        oset (omerge (getNodeObj nodes node_id) data)
          "lastUpdated" (Value.vStr (isoformat t))
      else
        -- create the entry, then .update(data); 'status' is guarded present
        omerge
          [("nodeId", Value.vStr node_id),
           ("status", (oget data "status").getD (Value.vStr "")),
           ("lastUpdated", Value.vStr (isoformat t))]
          data
    let r1 := oset r "nodes" (Value.vObj (oset nodes node_id (Value.vObj node)))
    (ApiResult.ok (Value.vObj node), oset reg1 execution_id (Value.vObj r1))
  else
    (ApiResult.err 400 "Node status is required", reg)

/-- The per-entry body of the `for node_id, node_data in data['nodes'].items()`
loop of `ExecutionStateResource.put` (lines 150-162).  A non-object
`node_data` would raise in the reference (`dict.update` on a non-mapping);
such entries are left untouched here and are excluded by every theorem. -/
def applyNodeBulk (t : Nat) (nodes : Obj) (entries : Obj) : Obj :=
  entries.foldl (fun acc kv =>
    match kv with
    | (node_id, Value.vObj node_data) =>
      if ohas acc node_id then
        match oget acc node_id with
        | some (Value.vObj old) =>
          oset acc node_id (Value.vObj (omerge old node_data))
        | _ => acc
      else
        oset acc node_id (Value.vObj (omerge
          [("nodeId", Value.vStr node_id),
           ("status", (oget node_data "status").getD (Value.vStr "pending")),
           ("lastUpdated", Value.vStr (isoformat t))]
          node_data))
    | _ => acc) nodes

/-- `ExecutionStateResource.put` (PUT `/executions/<id>`), the
"upsertExecutionState" operation of the spec.  Transcribed from lines
114-165 of `node_execution.py`. -/
def ExecutionStateResource.put (t : Nat) (reg : Registry)
    (execution_id : String) (data : Obj) : ApiResult × Registry :=
  let reg1 :=
    if ohas reg execution_id then
      let r := getRec reg execution_id
      let r :=
        match oget data "status" with
        | some v => oset r "status" v
        | none => r
      let r :=
        if completedOrFailed data then
          oset r "endTime" (Value.vStr (isoformat t))
        else r
      oset reg execution_id (Value.vObj r)
    else
      oset reg execution_id (Value.vObj
        [("executionId", Value.vStr execution_id),
         ("status", (oget data "status").getD (Value.vStr "running")),
         ("startTime", Value.vStr (isoformat t)),
         ("nodes", Value.vObj [])])
  let r1 := getRec reg1 execution_id
  let r2 := omergeExceptNodes r1 data
  let r3 :=
    match oget data "nodes" with
    | some (Value.vObj entries) =>
      oset r2 "nodes" (Value.vObj (applyNodeBulk t (getNodes r2) entries))
    | _ => r2
  (ApiResult.ok (Value.vObj r3), oset reg1 execution_id (Value.vObj r3))

/-- `NodeDataTransferResource.post`
(POST `/executions/<id>/transfer/<src>/<tgt>`), the "transferData" operation
of the spec.  Transcribed from lines 170-234 of `node_execution.py`; the
local `transfer_record` of lines 202-209 is dead (never stored) and elided. -/
def NodeDataTransferResource.post (t : Nat) (reg : Registry)
    (execution_id source_node_id target_node_id : String) (data : Obj) :
    ApiResult × Registry :=
  if ohas data "data" = false then
    (ApiResult.err 400 "Data payload is required", reg)
  else if ohas reg execution_id = false then
    (ApiResult.err 404 "Execution not found", reg)
  else
    let nodes := getNodes (getRec reg execution_id)
    if ohas nodes source_node_id = false then
      (ApiResult.err 404 ("Source node " ++ source_node_id ++ " not found"), reg)
    else if ohas nodes target_node_id = false then
      (ApiResult.err 404 ("Target node " ++ target_node_id ++ " not found"), reg)
    else
      let transfer_id := "transfer-" ++ natDecimal t
      let src := getNodeObj nodes source_node_id
      let src1 := oset src "outputs" (Value.vObj
        (oset (getDict src "outputs") target_node_id (Value.vObj
          [("transferId", Value.vStr transfer_id),
           ("timestamp", Value.vStr (isoformat t)),
           ("status", Value.vStr "sent")])))
      let nodes1 := oset nodes source_node_id (Value.vObj src1)
      -- the target is read after the source write: aliasing when src = tgt
      let tgt := getNodeObj nodes1 target_node_id
      let tgt1 := oset tgt "inputs" (Value.vObj
        (oset (getDict tgt "inputs") source_node_id (Value.vObj
          [("transferId", Value.vStr transfer_id),
           ("timestamp", Value.vStr (isoformat t)),
           ("status", Value.vStr "received"),
           ("data", (oget data "data").getD (Value.vStr ""))])))
      let nodes2 := oset nodes1 target_node_id (Value.vObj tgt1)
      let r1 := oset (getRec reg execution_id) "nodes" (Value.vObj nodes2)
      (ApiResult.ok (Value.vObj
        [("transferId", Value.vStr transfer_id),
         ("status", Value.vStr "completed"),
         ("message", Value.vStr ("Data transferred from " ++ source_node_id
            ++ " to " ++ target_node_id))]),
       oset reg execution_id (Value.vObj r1))

/-- `ManualNodeInteractionResource.post` (POST `/executions/<id>/manual/<id>`),
the "applyManualAction" operation of the spec.  Transcribed from lines
239-311 of `node_execution.py`.  A non-string `action` value raises
`AttributeError` in the reference (surfacing as a generic server error with
no state change); it is modelled as `err 500` with the registry unchanged. -/
def ManualNodeInteractionResource.post (t : Nat) (reg : Registry)
    (execution_id node_id : String) (data : Obj) : ApiResult × Registry :=
  match oget data "action" with
  | none => (ApiResult.err 400 "Action is required (approve, reject, or input)", reg)
  | some (Value.vStr raw) =>
    let action := strLower raw
    if (action = "approve" || action = "reject" || action = "input") = false then
      (ApiResult.err 400 "Invalid action. Must be approve, reject, or input", reg)
    else if ohas reg execution_id = false then
      (ApiResult.err 404 "Execution not found", reg)
    else
      let nodes := getNodes (getRec reg execution_id)
      if ohas nodes node_id = false then
        (ApiResult.err 404 "Node not found", reg)
      else
        let node := getNodeObj nodes node_id
        let ts := isoformat t
        let finish := fun (node1 : Obj) (message : String) =>
          let node2 := oset node1 "lastUpdated" (Value.vStr ts)
          let r1 := oset (getRec reg execution_id) "nodes"
            (Value.vObj (oset nodes node_id (Value.vObj node2)))
          (ApiResult.ok (Value.vObj
            [("status", Value.vStr "success"),
             ("message", Value.vStr message),
             ("node", Value.vObj node2)]),
           oset reg execution_id (Value.vObj r1))
        if action = "approve" then
          finish
            (oset (oset node "status" (Value.vStr "approved")) "userAction"
              (Value.vObj
                [("type", Value.vStr "approval"),
                 ("timestamp", Value.vStr ts),
                 ("comment", (oget data "comment").getD (Value.vStr ""))]))
            ("Node " ++ node_id ++ " has been approved")
        else if action = "reject" then
          finish
            (oset (oset node "status" (Value.vStr "rejected")) "userAction"
              (Value.vObj
                [("type", Value.vStr "rejection"),
                 ("timestamp", Value.vStr ts),
                 ("reason", (oget data "reason").getD (Value.vStr "")),
                 ("comment", (oget data "comment").getD (Value.vStr ""))]))
            ("Node " ++ node_id ++ " has been rejected")
        else
          if ohas data "input" = false then
            (ApiResult.err 400 "Input data is required for input action", reg)
          else
            finish
              (oset (oset node "status" (Value.vStr "running")) "userAction"
                (Value.vObj
                  [("type", Value.vStr "input"),
                   ("timestamp", Value.vStr ts),
                   ("input", (oget data "input").getD (Value.vStr ""))]))
              ("Input provided for node " ++ node_id)
  | some _ => (ApiResult.err 500 "Internal server error", reg)

/-- One public mutating operation of the registry, with its request body. -/
inductive Op where
  | upsertExec (execution_id : String) (data : Obj)
  | upsertNode (execution_id node_id : String) (data : Obj)
  | transfer (execution_id source_node_id target_node_id : String) (data : Obj)
  | manual (execution_id node_id : String) (data : Obj)

/-- Dispatch one operation at logical time `t`, returning result and state. -/
def applyOpR (t : Nat) (reg : Registry) : Op → ApiResult × Registry
  | Op.upsertExec e d => ExecutionStateResource.put t reg e d
  | Op.upsertNode e n d => NodeStatusResource.put t reg e n d
  | Op.transfer e s g d => NodeDataTransferResource.post t reg e s g d
  | Op.manual e n d => ManualNodeInteractionResource.post t reg e n d

/-- The registry after one operation. -/
def applyOp (t : Nat) (reg : Registry) (op : Op) : Registry :=
  (applyOpR t reg op).2

/-- The registry after a timed sequence of operations. -/
def runOps (ops : List (Nat × Op)) (reg : Registry) : Registry :=
  ops.foldl (fun r p => applyOp p.1 r p.2) reg

/-- Field of a successful JSON body, if any. -/
def resultField (res : ApiResult) (k : String) : Option Value :=
  match res with
  | ApiResult.ok (Value.vObj o) => oget o k
  | _ => none

/-! ### Association-list (dict) lemmas -/

theorem oget_oset_self (o : Obj) (k : String) (v : Value) :
    oget (oset o k v) k = some v := by
  induction o with
  | nil => simp [oset, oget]
  | cons p rest ih =>
    obtain ⟨k1, v1⟩ := p
    by_cases h : k1 = k
    · simp [oset, h, oget]
    · simp [oset, h, oget, ih]

theorem oget_oset_ne (o : Obj) (k : String) (v : Value) (k' : String)
    (h : k' ≠ k) : oget (oset o k v) k' = oget o k' := by
  induction o with
  | nil =>
    simp only [oset, oget]
    rw [if_neg (Ne.symm h)]
  | cons p rest ih =>
    obtain ⟨k1, v1⟩ := p
    simp only [oset]
    by_cases hk : k1 = k
    · rw [if_pos hk]
      simp only [oget]
      rw [if_neg (Ne.symm h), if_neg (fun e => h (e.symm.trans hk))]
    · rw [if_neg hk]
      simp only [oget]
      by_cases hk' : k1 = k'
      · rw [if_pos hk', if_pos hk']
      · rw [if_neg hk', if_neg hk', ih]

theorem ohas_isSome (o : Obj) (k : String) : ohas o k = (oget o k).isSome := by
  induction o with
  | nil => simp [ohas, oget]
  | cons p rest ih =>
    obtain ⟨k1, v1⟩ := p
    by_cases h : k1 = k
    · simp [ohas, oget, h]
    · simp [ohas, oget, h, ih]

theorem ohas_oset_self (o : Obj) (k : String) (v : Value) :
    ohas (oset o k v) k = true := by
  simp [ohas_isSome, oget_oset_self]

theorem ohas_oset_mono (o : Obj) (k : String) (v : Value) (k' : String)
    (h : ohas o k' = true) : ohas (oset o k v) k' = true := by
  by_cases hk : k' = k
  · subst hk; exact ohas_oset_self o k' v
  · rw [ohas_isSome, oget_oset_ne o k v k' hk, ← ohas_isSome]; exact h

theorem omerge_nil (o : Obj) : omerge o [] = o := rfl

theorem omerge_cons (o : Obj) (q : String × Value) (p : Obj) :
    omerge o (q :: p) = omerge (oset o q.1 q.2) p := rfl

theorem ohas_omerge_left (o p : Obj) (k : String)
    (h : ohas o k = true) : ohas (omerge o p) k = true := by
  induction p generalizing o with
  | nil => simpa [omerge_nil] using h
  | cons q rest ih =>
    rw [omerge_cons]
    exact ih _ (ohas_oset_mono _ _ _ _ h)

theorem oget_omerge_not_has (o p : Obj) (k : String)
    (h : ohas p k = false) : oget (omerge o p) k = oget o k := by
  induction p generalizing o with
  | nil => rw [omerge_nil]
  | cons q rest ih =>
    obtain ⟨k1, v1⟩ := q
    simp only [ohas, Bool.or_eq_false_iff, decide_eq_false_iff_not] at h
    rw [omerge_cons]
    rw [ih _ h.2]
    exact oget_oset_ne _ _ _ _ (fun e => h.1 (e.symm))

theorem mem_keys_of_oget (o : Obj) (k : String) (w : Value)
    (h : oget o k = some w) : k ∈ o.map Prod.fst := by
  induction o with
  | nil => simp [oget] at h
  | cons q rest ih =>
    obtain ⟨k1, v1⟩ := q
    by_cases hk : k1 = k
    · simp [hk]
    · simp only [oget, if_neg hk] at h
      simp [ih h]

theorem ohas_eq_false_of_nodup_head (k1 : String) (rest : Obj)
    (hn : k1 ∉ rest.map Prod.fst) : ohas rest k1 = false := by
  rw [ohas_isSome]
  cases hg : oget rest k1 with
  | none => rfl
  | some w => exact absurd (mem_keys_of_oget _ _ _ hg) hn

theorem oget_omerge_nodup (o p : Obj) (k : String) (v : Value)
    (hn : (p.map Prod.fst).Nodup) (h : oget p k = some v) :
    oget (omerge o p) k = some v := by
  induction p generalizing o with
  | nil => simp [oget] at h
  | cons q rest ih =>
    obtain ⟨k1, v1⟩ := q
    simp only [List.map_cons, List.nodup_cons] at hn
    by_cases hk : k1 = k
    · subst hk
      simp only [oget, if_pos rfl] at h
      cases h
      rw [omerge_cons]
      rw [oget_omerge_not_has _ _ _ (ohas_eq_false_of_nodup_head _ _ hn.1)]
      exact oget_oset_self o k1 _
    · simp only [oget, if_neg hk] at h
      rw [omerge_cons]
      exact ih _ hn.2 h

theorem omen_nil (o : Obj) : omergeExceptNodes o [] = o := rfl

theorem omen_cons (o : Obj) (q : String × Value) (p : Obj) :
    omergeExceptNodes o (q :: p) =
      omergeExceptNodes (if q.1 = "nodes" then o else oset o q.1 q.2) p := rfl

theorem oget_omen_nodes (o p : Obj) :
    oget (omergeExceptNodes o p) "nodes" = oget o "nodes" := by
  induction p generalizing o with
  | nil => rw [omen_nil]
  | cons q rest ih =>
    rw [omen_cons]
    by_cases h : q.1 = "nodes"
    · rw [if_pos h, ih]
    · rw [if_neg h, ih, oget_oset_ne _ _ _ _ (fun e => h e.symm)]

theorem oget_omen_not_has (o p : Obj) (k : String)
    (h : ohas p k = false) : oget (omergeExceptNodes o p) k = oget o k := by
  induction p generalizing o with
  | nil => rw [omen_nil]
  | cons q rest ih =>
    obtain ⟨k1, v1⟩ := q
    simp only [ohas, Bool.or_eq_false_iff, decide_eq_false_iff_not] at h
    rw [omen_cons, ih _ h.2]
    by_cases hn : k1 = "nodes"
    · simp [hn]
    · simp only [hn, if_neg, ite_false]
      exact oget_oset_ne _ _ _ _ (fun e => h.1 (e.symm))

theorem ohas_omen_left (o p : Obj) (k : String)
    (h : ohas o k = true) : ohas (omergeExceptNodes o p) k = true := by
  induction p generalizing o with
  | nil => simpa [omen_nil] using h
  | cons q rest ih =>
    rw [omen_cons]
    by_cases hn : q.1 = "nodes"
    · rw [if_pos hn]; exact ih _ h
    · rw [if_neg hn]; exact ih _ (ohas_oset_mono _ _ _ _ h)

theorem oget_omen_nodup (o p : Obj) (k : String) (v : Value)
    (hn : (p.map Prod.fst).Nodup) (hk : k ≠ "nodes") (h : oget p k = some v) :
    oget (omergeExceptNodes o p) k = some v := by
  induction p generalizing o with
  | nil => simp [oget] at h
  | cons q rest ih =>
    obtain ⟨k1, v1⟩ := q
    simp only [List.map_cons, List.nodup_cons] at hn
    by_cases hk1 : k1 = k
    · subst hk1
      simp only [oget, if_pos rfl] at h
      cases h
      rw [omen_cons]
      simp only [if_neg hk]
      rw [oget_omen_not_has _ _ _ (ohas_eq_false_of_nodup_head _ _ hn.1)]
      exact oget_oset_self o k1 _
    · simp only [oget, if_neg hk1] at h
      rw [omen_cons]
      exact ih _ hn.2 h

theorem getRec_oset_self (reg : Registry) (e : String) (r : Obj) :
    getRec (oset reg e (Value.vObj r)) e = r := by
  simp [getRec, getDict, oget_oset_self]

theorem getRec_oset_ne (reg : Registry) (e : String) (v : Value) (e' : String)
    (h : e' ≠ e) : getRec (oset reg e v) e' = getRec reg e' := by
  simp [getRec, getDict, oget_oset_ne _ _ _ _ h]

theorem getNodes_oset_nodes (r : Obj) (m : Obj) :
    getNodes (oset r "nodes" (Value.vObj m)) = m := by
  simp [getNodes, getDict, oget_oset_self]

/-! ### Decimal representation: injectivity of `natDecimal` -/

theorem fromDigits_nil : fromDigits [] = 0 := rfl

theorem fromDigits_cons (d : Nat) (l : List Nat) :
    fromDigits (d :: l) = d + 10 * fromDigits l := rfl

theorem fromDigits_decDigitsCore (fuel : Nat) :
    ∀ n : Nat, n ≤ fuel → fromDigits (decDigitsCore fuel n) = n := by
  induction fuel with
  | zero =>
    intro n hn
    interval_cases n
    rfl
  | succ fuel ih =>
    intro n hn
    by_cases h0 : n = 0
    · subst h0; simp [decDigitsCore, fromDigits_nil]
    · have hdiv : n / 10 ≤ fuel := by
        have h1 : n / 10 < n := Nat.div_lt_self (Nat.pos_of_ne_zero h0) (by omega)
        omega
      simp only [decDigitsCore, if_neg h0, fromDigits_cons, ih _ hdiv]
      exact Nat.mod_add_div n 10

theorem fromDigits_decDigits (n : Nat) : fromDigits (decDigits n) = n :=
  fromDigits_decDigitsCore n n le_rfl

theorem decDigits_lt_ten (fuel : Nat) :
    ∀ n : Nat, ∀ d ∈ decDigitsCore fuel n, d < 10 := by
  induction fuel with
  | zero => intro n d hd; simp [decDigitsCore] at hd
  | succ fuel ih =>
    intro n d hd
    by_cases h0 : n = 0
    · subst h0; simp [decDigitsCore] at hd
    · simp only [decDigitsCore, if_neg h0, List.mem_cons] at hd
      rcases hd with hd | hd
      · subst hd; exact Nat.mod_lt n (by omega)
      · exact ih _ _ hd

theorem digitChar_inj_lt_ten :
    ∀ a, a < 10 → ∀ b, b < 10 → Nat.digitChar a = Nat.digitChar b → a = b := by
  decide

theorem map_digitChar_inj (l1 : List Nat) :
    ∀ l2 : List Nat, (∀ d ∈ l1, d < 10) → (∀ d ∈ l2, d < 10) →
    l1.map Nat.digitChar = l2.map Nat.digitChar → l1 = l2 := by
  induction l1 with
  | nil =>
    intro l2 _ _ h
    cases l2 with
    | nil => rfl
    | cons b bs => simp at h
  | cons a as ih =>
    intro l2 h1 h2 h
    cases l2 with
    | nil => simp at h
    | cons b bs =>
      simp only [List.map_cons, List.cons.injEq] at h
      have ha : a < 10 := h1 a (by simp)
      have hb : b < 10 := h2 b (by simp)
      have hab : a = b := digitChar_inj_lt_ten a ha b hb h.1
      have has : as = bs :=
        ih bs (fun d hd => h1 d (by simp [hd])) (fun d hd => h2 d (by simp [hd])) h.2
      rw [hab, has]

theorem natDecimal_inj (a b : Nat) (h : natDecimal a = natDecimal b) : a = b := by
  by_cases ha : a = 0 <;> by_cases hb : b = 0
  · rw [ha, hb]
  · exfalso
    rw [natDecimal, if_pos ha, natDecimal, if_neg hb] at h
    have hl : ['0'] = (decDigits b).reverse.map Nat.digitChar := congrArg String.data h
    have h0 : ([0] : List Nat).map Nat.digitChar = (decDigits b).reverse.map Nat.digitChar := hl
    have hrev : ([0] : List Nat) = (decDigits b).reverse := by
      apply map_digitChar_inj _ _ (by simp) _ h0
      intro d hd
      exact decDigits_lt_ten b b d (List.mem_reverse.mp hd)
    have hdig : decDigits b = [0] := by
      have := congrArg List.reverse hrev
      simpa using this.symm
    have : b = 0 := by
      have hfd := fromDigits_decDigits b
      rw [hdig] at hfd
      simpa [fromDigits_cons, fromDigits_nil] using hfd.symm
    exact hb this
  · exfalso
    rw [natDecimal, if_neg ha, natDecimal, if_pos hb] at h
    have hl : (decDigits a).reverse.map Nat.digitChar = ['0'] := congrArg String.data h
    have h0 : (decDigits a).reverse.map Nat.digitChar = ([0] : List Nat).map Nat.digitChar := hl
    have hrev : (decDigits a).reverse = ([0] : List Nat) := by
      apply map_digitChar_inj _ _ _ (by simp) h0
      intro d hd
      exact decDigits_lt_ten a a d (List.mem_reverse.mp hd)
    have hdig : decDigits a = [0] := by
      have := congrArg List.reverse hrev
      simpa using this
    have : a = 0 := by
      have hfd := fromDigits_decDigits a
      rw [hdig] at hfd
      simpa [fromDigits_cons, fromDigits_nil] using hfd.symm
    exact ha this
  · rw [natDecimal, if_neg ha, natDecimal, if_neg hb] at h
    have hl : (decDigits a).reverse.map Nat.digitChar = (decDigits b).reverse.map Nat.digitChar :=
      congrArg String.data h
    have hrev : (decDigits a).reverse = (decDigits b).reverse := by
      apply map_digitChar_inj _ _ _ _ hl
      · intro d hd; exact decDigits_lt_ten a a d (List.mem_reverse.mp hd)
      · intro d hd; exact decDigits_lt_ten b b d (List.mem_reverse.mp hd)
    have hdig : decDigits a = decDigits b := by
      have := congrArg List.reverse hrev
      simpa using this
    have := congrArg fromDigits hdig
    rwa [fromDigits_decDigits, fromDigits_decDigits] at this

theorem string_append_left_cancel (a b c : String)
    (h : a ++ b = a ++ c) : b = c := by
  cases a with
  | mk la =>
    cases b with
    | mk lb =>
      cases c with
      | mk lc =>
        have h2 : String.mk (la ++ lb) = String.mk (la ++ lc) := h
        have h3 : la ++ lb = la ++ lc := congrArg String.data h2
        have h4 : lb = lc := List.append_cancel_left h3
        rw [h4]

/-! ### Registry-level helper lemmas -/

theorem oget_eq_none_of_ohas_false (o : Obj) (k : String) (h : ohas o k = false) :
    oget o k = none := by
  rw [ohas_isSome] at h
  cases hg : oget o k with
  | none => rfl
  | some v => rw [hg] at h; simp at h

theorem getRec_eq_nil_of_ohas_false (reg : Registry) (e : String)
    (h : ohas reg e = false) : getRec reg e = [] := by
  simp [getRec, getDict, oget_eq_none_of_ohas_false reg e h]

theorem getRec_ensureExec_ne (t : Nat) (reg : Registry) (e2 e : String)
    (h : e ≠ e2) : getRec (ensureExec t reg e2) e = getRec reg e := by
  rw [ensureExec]
  by_cases hex : ohas reg e2
  · rw [if_pos hex]
  · rw [if_neg hex, getRec_oset_ne _ _ _ _ h]

/-- Registry-wide monotonicity of key presence on one execution record: no
public operation ever deletes a top-level key of an execution record. -/
theorem applyOp_key_mono (t : Nat) (reg : Registry) (op : Op) (e k : String)
    (h : ohas (getRec reg e) k = true) :
    ohas (getRec (applyOp t reg op) e) k = true := by
  cases op with
  | upsertNode e2 n d =>
    simp only [applyOp, applyOpR, NodeStatusResource.put]
    by_cases hs : ohas d "status"
    · simp only [if_pos hs]
      by_cases he : e = e2
      · subst he
        rw [getRec_oset_self]
        apply ohas_oset_mono
        by_cases hex : ohas reg e
        · rw [ensureExec, if_pos hex]; exact h
        · rw [getRec_eq_nil_of_ohas_false reg e (by simpa using hex)] at h
          simp [ohas] at h
      · rw [getRec_oset_ne _ _ _ _ he, getRec_ensureExec_ne _ _ _ _ he]
        exact h
    · simp only [if_neg hs]
      exact h
  | upsertExec e2 d =>
    simp only [applyOp, applyOpR, ExecutionStateResource.put]
    by_cases he : e = e2
    · subst he
      by_cases hex : ohas reg e
      · simp only [if_pos hex, getRec_oset_self]
        have hmid : ohas (match oget d "status" with
            | some v => oset (getRec reg e) "status" v
            | none => getRec reg e) k = true := by
          cases oget d "status" with
          | none => exact h
          | some v => exact ohas_oset_mono _ _ _ _ h
        have h1 :
            ohas (if completedOrFailed d then
                oset (match oget d "status" with
                  | some v => oset (getRec reg e) "status" v
                  | none => getRec reg e) "endTime" (Value.vStr (isoformat t))
              else
                match oget d "status" with
                | some v => oset (getRec reg e) "status" v
                | none => getRec reg e) k = true := by
          by_cases hc : completedOrFailed d
          · rw [if_pos hc]; exact ohas_oset_mono _ _ _ _ hmid
          · rw [if_neg hc]; exact hmid
        cases hg : oget d "nodes" with
        | none =>
          simp only [hg]
          exact ohas_omen_left _ _ _ h1
        | some v =>
          cases v with
          | vObj entries =>
            simp only [hg]
            exact ohas_oset_mono _ _ _ _ (ohas_omen_left _ _ _ h1)
          | vStr s => simp only [hg]; exact ohas_omen_left _ _ _ h1
          | vNat m => simp only [hg]; exact ohas_omen_left _ _ _ h1
      · rw [getRec_eq_nil_of_ohas_false reg e (by simpa using hex)] at h
        simp [ohas] at h
    · by_cases hex : ohas reg e2
      · simp only [if_pos hex, getRec_oset_ne _ _ _ _ he]
        exact h
      · simp only [if_neg hex, getRec_oset_ne _ _ _ _ he]
        exact h
  | transfer e2 s g d =>
    simp only [applyOp, applyOpR, NodeDataTransferResource.post]
    split
    · exact h
    · split
      · exact h
      · split
        · exact h
        · split
          · exact h
          · by_cases he : e = e2
            · subst he
              rw [getRec_oset_self]
              exact ohas_oset_mono _ _ _ _ h
            · rw [getRec_oset_ne _ _ _ _ he]
              exact h
  | manual e2 n d =>
    simp only [applyOp, applyOpR, ManualNodeInteractionResource.post]
    split
    · exact h
    · split
      · exact h
      · split
        · exact h
        · split
          · exact h
          · split
            · by_cases he : e = e2
              · subst he
                rw [getRec_oset_self]
                exact ohas_oset_mono _ _ _ _ h
              · rw [getRec_oset_ne _ _ _ _ he]
                exact h
            · split
              · by_cases he : e = e2
                · subst he
                  rw [getRec_oset_self]
                  exact ohas_oset_mono _ _ _ _ h
                · rw [getRec_oset_ne _ _ _ _ he]
                  exact h
              · split
                · exact h
                · by_cases he : e = e2
                  · subst he
                    rw [getRec_oset_self]
                    exact ohas_oset_mono _ _ _ _ h
                  · rw [getRec_oset_ne _ _ _ _ he]
                    exact h
    · exact h

/-! ### Claim C1 -/

/-- Claim C1, counterexample: `upsertExecutionState` on a fresh executionId
with `status = "completed"` creates the execution with that status but does
NOT set `endTime` (the endTime rule of lines 140-142 of `node_execution.py`
lives in the already-exists branch only), contradicting the claim that
creation "applies the rest of the operation's semantics, including the
endTime rule". -/
theorem exec_create_completed_endtime_cex :
    oget (getRec (ExecutionStateResource.put 5 [] "e"
        [("status", Value.vStr "completed")]).2 "e") "status" = some (Value.vStr "completed")
    ∧ oget (getRec (ExecutionStateResource.put 5 [] "e"
        [("status", Value.vStr "completed")]).2 "e") "endTime" = none :=
  ⟨rfl, rfl⟩

/-- Claim C1 as amended: for a fresh executionId and
`partialData.status ∈ {completed, failed}` (with no caller-supplied
`endTime` and duplicate-free keys, as for a JSON object),
`upsertExecutionState` creates the execution carrying the given status, but
leaves `endTime` unset: the endTime rule applies only to executions that
already existed before the call. -/
theorem exec_create_terminal_status_no_endtime (t : Nat) (reg : Registry)
    (e s : String) (data : Obj)
    (hfresh : ohas reg e = false)
    (hst : oget data "status" = some (Value.vStr s))
    (_hterm : s = "completed" ∨ s = "failed")
    (hnoet : ohas data "endTime" = false)
    (hnodup : (data.map Prod.fst).Nodup) :
    ohas (ExecutionStateResource.put t reg e data).2 e = true
    ∧ oget (getRec (ExecutionStateResource.put t reg e data).2 e) "status"
        = some (Value.vStr s)
    ∧ oget (getRec (ExecutionStateResource.put t reg e data).2 e) "endTime" = none := by
  have hput : (ExecutionStateResource.put t reg e data).2 =
      oset (oset reg e (Value.vObj
        [("executionId", Value.vStr e),
         ("status", Value.vStr s),
         ("startTime", Value.vStr (isoformat t)),
         ("nodes", Value.vObj [])])) e (Value.vObj
        (match oget data "nodes" with
         | some (Value.vObj entries) =>
           oset (omergeExceptNodes (getRec (oset reg e (Value.vObj
             [("executionId", Value.vStr e),
              ("status", Value.vStr s),
              ("startTime", Value.vStr (isoformat t)),
              ("nodes", Value.vObj [])])) e) data) "nodes"
             (Value.vObj (applyNodeBulk t
               (getNodes (omergeExceptNodes (getRec (oset reg e (Value.vObj
                 [("executionId", Value.vStr e),
                  ("status", Value.vStr s),
                  ("startTime", Value.vStr (isoformat t)),
                  ("nodes", Value.vObj [])])) e) data)) entries))
         | _ => omergeExceptNodes (getRec (oset reg e (Value.vObj
             [("executionId", Value.vStr e),
              ("status", Value.vStr s),
              ("startTime", Value.vStr (isoformat t)),
              ("nodes", Value.vObj [])])) e) data)) := by
    simp only [ExecutionStateResource.put, hfresh, Bool.false_eq_true, if_false, hst,
      Option.getD_some]
  rw [hput, getRec_oset_self]
  set created : Obj :=
    [("executionId", Value.vStr e),
     ("status", Value.vStr s),
     ("startTime", Value.vStr (isoformat t)),
     ("nodes", Value.vObj [])] with hcreated
  rw [getRec_oset_self]
  have hstat2 : oget (omergeExceptNodes created data) "status" = some (Value.vStr s) :=
    oget_omen_nodup created data "status" (Value.vStr s) hnodup (by decide) hst
  have het2 : oget (omergeExceptNodes created data) "endTime" = none := by
    rw [oget_omen_not_has created data "endTime" hnoet]
    simp [hcreated, oget]
  refine ⟨ohas_oset_self _ _ _, ?_, ?_⟩
  · cases hg : oget data "nodes" with
    | none => simpa using hstat2
    | some v =>
      cases v with
      | vObj entries =>
        simp only []
        rw [oget_oset_ne _ _ _ _ (by decide)]
        exact hstat2
      | vStr s2 => simpa using hstat2
      | vNat m => simpa using hstat2
  · cases hg : oget data "nodes" with
    | none => simpa using het2
    | some v =>
      cases v with
      | vObj entries =>
        simp only []
        rw [oget_oset_ne _ _ _ _ (by decide)]
        exact het2
      | vStr s2 => simpa using het2
      | vNat m => simpa using het2

/-- Witness for the amended C1 theorem at a concrete input. -/
theorem exec_create_terminal_status_no_endtime_witness :
    ohas (ExecutionStateResource.put 5 [] "e" [("status", Value.vStr "completed")]).2 "e" = true
    ∧ oget (getRec (ExecutionStateResource.put 5 [] "e"
        [("status", Value.vStr "completed")]).2 "e") "status" = some (Value.vStr "completed")
    ∧ oget (getRec (ExecutionStateResource.put 5 [] "e"
        [("status", Value.vStr "completed")]).2 "e") "endTime" = none :=
  exec_create_terminal_status_no_endtime 5 [] "e" "completed"
    [("status", Value.vStr "completed")] rfl rfl (Or.inl rfl) rfl (by simp)

/-! ### Claim C2 -/

/-- Claim C2, counterexample: a record reachable by one public operation
(`upsertExecutionState` creating the execution with `status = "completed"`)
has been assigned a terminal status yet carries no `endTime` field, so the
claimed "endTime iff a terminal status was assigned" equivalence fails. -/
theorem endtime_iff_terminal_cex :
    oget (getRec (runOps [(3, Op.upsertExec "e" [("status", Value.vStr "completed")])] []) "e")
        "status" = some (Value.vStr "completed")
    ∧ ohas (getRec (runOps [(3, Op.upsertExec "e" [("status", Value.vStr "completed")])] []) "e")
        "endTime" = false :=
  ⟨rfl, rfl⟩

/-- Claim C2 as amended: the "never removed" half of the invariant holds —
once an execution record carries an `endTime` key, every later sequence of
public registry operations preserves its presence.  (The "if and only if"
half fails: creation with a terminal status does not set `endTime`, and the
verbatim top-level copy can introduce `endTime` without any terminal
status.) -/
theorem endtime_never_removed (ops : List (Nat × Op)) (reg : Registry) (e : String)
    (h : ohas (getRec reg e) "endTime" = true) :
    ohas (getRec (runOps ops reg) e) "endTime" = true := by
  induction ops generalizing reg with
  | nil => exact h
  | cons p rest ih =>
    exact ih _ (applyOp_key_mono p.1 reg p.2 e "endTime" h)

/-- Witness for the amended C2 theorem at a concrete input. -/
theorem endtime_never_removed_witness :
    ohas (getRec [("e", Value.vObj [("endTime", Value.vStr "x")])] "e") "endTime" = true
    ∧ ohas (getRec (runOps [(0, Op.upsertExec "e" [("status", Value.vStr "running")])]
        [("e", Value.vObj [("endTime", Value.vStr "x")])]) "e") "endTime" = true :=
  ⟨rfl, endtime_never_removed _ _ _ rfl⟩

/-! ### Claim C3 -/

/-- Claim C3, counterexample: the verbatim top-level copy loop of
`ExecutionStateResource.put` (lines 144-147) copies a caller-supplied
`startTime` key onto the record, so a second `upsertExecutionState` call
with `partialData = {startTime: "HACK"}` changes `startTime`, contradicting
"no subsequent call ... whatever top-level keys its partialData contains —
changes the value of startTime". -/
theorem starttime_overwrite_cex :
    oget (getRec (ExecutionStateResource.put 0 [] "e" []).2 "e") "startTime"
        = some (Value.vStr (isoformat 0))
    ∧ oget (getRec (ExecutionStateResource.put 1 (ExecutionStateResource.put 0 [] "e" []).2
        "e" [("startTime", Value.vStr "HACK")]).2 "e") "startTime"
        = some (Value.vStr "HACK")
    ∧ ("HACK" : String) ≠ isoformat 0 :=
  ⟨rfl, rfl, by decide⟩

/-- Claim C3 as amended: `startTime` is set at creation and is preserved by
every operation on an existing execution, with the single exception forced
by the counterexample — an `upsertExecutionState` call whose partialData
itself contains a top-level `startTime` key (which is copied verbatim).
For every operation whose payload does not carry a `startTime` key, the
record's `startTime` value is unchanged. -/
theorem starttime_immutable_amended (t : Nat) (reg : Registry) (op : Op) (e : String)
    (hex : ohas reg e = true)
    (hst : ∀ e2 d, op = Op.upsertExec e2 d → ohas d "startTime" = false) :
    oget (getRec (applyOp t reg op) e) "startTime" = oget (getRec reg e) "startTime" := by
  cases op with
  | upsertNode e2 n d =>
    simp only [applyOp, applyOpR, NodeStatusResource.put]
    by_cases hs : ohas d "status"
    · simp only [if_pos hs]
      by_cases he : e = e2
      · subst he
        rw [show ensureExec t reg e = reg from by rw [ensureExec, if_pos hex]]
        rw [getRec_oset_self]
        exact oget_oset_ne _ _ _ _ (by decide)
      · rw [getRec_oset_ne _ _ _ _ he, getRec_ensureExec_ne _ _ _ _ he]
    · simp only [if_neg hs]
  | upsertExec e2 d =>
    have hd := hst e2 d rfl
    simp only [applyOp, applyOpR, ExecutionStateResource.put]
    by_cases he : e = e2
    · subst he
      simp only [if_pos hex, getRec_oset_self]
      have hmid : oget (match oget d "status" with
          | some v => oset (getRec reg e) "status" v
          | none => getRec reg e) "startTime" = oget (getRec reg e) "startTime" := by
        cases oget d "status" with
        | none => rfl
        | some v => exact oget_oset_ne _ _ _ _ (by decide)
      have h1 : oget (if completedOrFailed d then
            oset (match oget d "status" with
              | some v => oset (getRec reg e) "status" v
              | none => getRec reg e) "endTime" (Value.vStr (isoformat t))
          else
            match oget d "status" with
            | some v => oset (getRec reg e) "status" v
            | none => getRec reg e) "startTime" = oget (getRec reg e) "startTime" := by
        by_cases hc : completedOrFailed d
        · rw [if_pos hc, oget_oset_ne _ _ _ _ (by decide)]; exact hmid
        · rw [if_neg hc]; exact hmid
      have h2 : oget (omergeExceptNodes (if completedOrFailed d then
            oset (match oget d "status" with
              | some v => oset (getRec reg e) "status" v
              | none => getRec reg e) "endTime" (Value.vStr (isoformat t))
          else
            match oget d "status" with
            | some v => oset (getRec reg e) "status" v
            | none => getRec reg e) d) "startTime" = oget (getRec reg e) "startTime" := by
        rw [oget_omen_not_has _ _ _ hd]; exact h1
      cases hg : oget d "nodes" with
      | none => simpa using h2
      | some v =>
        cases v with
        | vObj entries =>
          simp only []
          rw [oget_oset_ne _ _ _ _ (by decide)]
          exact h2
        | vStr s2 => simpa using h2
        | vNat m => simpa using h2
    · by_cases hex2 : ohas reg e2
      · simp only [if_pos hex2]
        rw [getRec_oset_ne _ _ _ _ he, getRec_oset_ne _ _ _ _ he]
      · simp only [if_neg hex2]
        rw [getRec_oset_ne _ _ _ _ he, getRec_oset_ne _ _ _ _ he]
  | transfer e2 s g d =>
    simp only [applyOp, applyOpR, NodeDataTransferResource.post]
    split
    · rfl
    · split
      · rfl
      · split
        · rfl
        · split
          · rfl
          · by_cases he : e = e2
            · subst he
              rw [getRec_oset_self]
              exact oget_oset_ne _ _ _ _ (by decide)
            · rw [getRec_oset_ne _ _ _ _ he]
  | manual e2 n d =>
    simp only [applyOp, applyOpR, ManualNodeInteractionResource.post]
    split
    · rfl
    · split
      · rfl
      · split
        · rfl
        · split
          · rfl
          · split
            · by_cases he : e = e2
              · subst he
                rw [getRec_oset_self]
                exact oget_oset_ne _ _ _ _ (by decide)
              · rw [getRec_oset_ne _ _ _ _ he]
            · split
              · by_cases he : e = e2
                · subst he
                  rw [getRec_oset_self]
                  exact oget_oset_ne _ _ _ _ (by decide)
                · rw [getRec_oset_ne _ _ _ _ he]
              · split
                · rfl
                · by_cases he : e = e2
                  · subst he
                    rw [getRec_oset_self]
                    exact oget_oset_ne _ _ _ _ (by decide)
                  · rw [getRec_oset_ne _ _ _ _ he]
    · rfl

/-- Witness for the amended C3 theorem at a concrete input. -/
theorem starttime_immutable_amended_witness :
    oget (getRec (applyOp 4 [("e", Value.vObj [("startTime", Value.vStr "S")])]
        (Op.upsertExec "e" [("status", Value.vStr "completed")])) "e") "startTime"
      = oget (getRec [("e", Value.vObj [("startTime", Value.vStr "S")])] "e") "startTime" :=
  starttime_immutable_amended 4 _ _ "e" rfl (by intro e2 d h; cases h; rfl)

/-! ### Claim C4 -/

/-- Claim C4: every operation that returns an error (any `BadRequest` or
`NotFound`, for any of the four public operations) leaves the registry
exactly as it was before the call: all validation happens before any write.
(`upsertExecutionState` never errs; the other handlers return before any
mutation on every error path.) -/
theorem error_leaves_registry_unchanged (t : Nat) (reg : Registry) (op : Op)
    (c : Nat) (m : String)
    (h : (applyOpR t reg op).1 = ApiResult.err c m) :
    (applyOpR t reg op).2 = reg := by
  cases op with
  | upsertExec e2 d =>
    simp only [applyOpR, ExecutionStateResource.put] at h
    simp at h
  | upsertNode e2 n d =>
    simp only [applyOpR, NodeStatusResource.put] at h ⊢
    by_cases hs : ohas d "status"
    · simp only [if_pos hs] at h
      simp at h
    · simp only [if_neg hs]
  | transfer e2 s g d =>
    simp only [applyOpR, NodeDataTransferResource.post] at h ⊢
    by_cases h1 : ohas d "data" = false
    · simp only [if_pos h1]
    · simp only [if_neg h1] at h ⊢
      by_cases h2 : ohas reg e2 = false
      · simp only [if_pos h2]
      · simp only [if_neg h2] at h ⊢
        by_cases h3 : ohas (getNodes (getRec reg e2)) s = false
        · simp only [if_pos h3]
        · simp only [if_neg h3] at h ⊢
          by_cases h4 : ohas (getNodes (getRec reg e2)) g = false
          · simp only [if_pos h4]
          · simp only [if_neg h4] at h
            simp at h
  | manual e2 n d =>
    simp only [applyOpR, ManualNodeInteractionResource.post] at h ⊢
    rcases ho : oget d "action" with _ | v
    · simp only [ho] at h ⊢
    · cases v with
      | vStr raw =>
        simp only [ho] at h ⊢
        by_cases hval : (strLower raw = "approve" || strLower raw = "reject"
            || strLower raw = "input") = false
        · simp only [if_pos hval]
        · simp only [if_neg hval] at h ⊢
          by_cases h2 : ohas reg e2 = false
          · simp only [if_pos h2]
          · simp only [if_neg h2] at h ⊢
            by_cases h3 : ohas (getNodes (getRec reg e2)) n = false
            · simp only [if_pos h3]
            · simp only [if_neg h3] at h ⊢
              by_cases ha : strLower raw = "approve"
              · simp only [if_pos ha] at h
                simp at h
              · simp only [if_neg ha] at h ⊢
                by_cases hr : strLower raw = "reject"
                · simp only [if_pos hr] at h
                  simp at h
                · simp only [if_neg hr] at h ⊢
                  by_cases hi : ohas d "input" = false
                  · simp only [if_pos hi]
                  · simp only [if_neg hi] at h
                    simp at h
      | vNat m2 => simp only [ho] at h ⊢
      | vObj o2 => simp only [ho] at h ⊢

/-- Witness for C4 at a concrete input: a transfer whose payload lacks
`data` fails with 400 and leaves the (empty) registry unchanged. -/
theorem error_leaves_registry_unchanged_witness :
    (applyOpR 0 [] (Op.transfer "e" "a" "b" [])).1
        = ApiResult.err 400 "Data payload is required"
    ∧ (applyOpR 0 [] (Op.transfer "e" "a" "b" [])).2 = [] :=
  ⟨rfl, error_leaves_registry_unchanged 0 [] (Op.transfer "e" "a" "b" []) 400
    "Data payload is required" rfl⟩

/-! ### Claim C5 -/

theorem getDict_oset_self (o : Obj) (k : String) (m : Obj) :
    getDict (oset o k (Value.vObj m)) k = m := by
  simp [getDict, oget_oset_self]

theorem getDict_oset_ne (o : Obj) (k : String) (v : Value) (k' : String)
    (h : k' ≠ k) : getDict (oset o k v) k' = getDict o k' := by
  simp [getDict, oget_oset_ne _ _ _ _ h]

theorem getNodeObj_oset_self (o : Obj) (k : String) (m : Obj) :
    getNodeObj (oset o k (Value.vObj m)) k = m :=
  getDict_oset_self o k m

theorem getNodeObj_oset_ne (o : Obj) (k : String) (v : Value) (k' : String)
    (h : k' ≠ k) : getNodeObj (oset o k v) k' = getNodeObj o k' :=
  getDict_oset_ne o k v k' h

/-- Claim C5: on an execution whose node mapping already contains `A` and
`B`, `transferData` succeeds with `{transferId, status: "completed",
message}`, records a `sent` stub under the source's `outputs[B]`, a
`received` stub carrying the payload under the target's `inputs[A]`, and
leaves the top-level `status` of both nodes unchanged. -/
theorem transfer_success (t : Nat) (reg : Registry) (e A B : String) (x : Value)
    (r nodes na nb : Obj)
    (hr : oget reg e = some (Value.vObj r))
    (hn : oget r "nodes" = some (Value.vObj nodes))
    (hA : oget nodes A = some (Value.vObj na))
    (hB : oget nodes B = some (Value.vObj nb)) :
    (NodeDataTransferResource.post t reg e A B [("data", x)]).1
      = ApiResult.ok (Value.vObj
          [("transferId", Value.vStr ("transfer-" ++ natDecimal t)),
           ("status", Value.vStr "completed"),
           ("message", Value.vStr ("Data transferred from " ++ A ++ " to " ++ B))])
    ∧ oget (getNodeObj (getDict (getNodeObj (getNodes (getRec
        (NodeDataTransferResource.post t reg e A B [("data", x)]).2 e)) A) "outputs") B)
        "status" = some (Value.vStr "sent")
    ∧ oget (getNodeObj (getDict (getNodeObj (getNodes (getRec
        (NodeDataTransferResource.post t reg e A B [("data", x)]).2 e)) A) "outputs") B)
        "transferId" = some (Value.vStr ("transfer-" ++ natDecimal t))
    ∧ oget (getNodeObj (getNodes (getRec
        (NodeDataTransferResource.post t reg e A B [("data", x)]).2 e)) A) "status"
        = oget na "status"
    ∧ oget (getNodeObj (getDict (getNodeObj (getNodes (getRec
        (NodeDataTransferResource.post t reg e A B [("data", x)]).2 e)) B) "inputs") A)
        "status" = some (Value.vStr "received")
    ∧ oget (getNodeObj (getDict (getNodeObj (getNodes (getRec
        (NodeDataTransferResource.post t reg e A B [("data", x)]).2 e)) B) "inputs") A)
        "data" = some x
    ∧ oget (getNodeObj (getNodes (getRec
        (NodeDataTransferResource.post t reg e A B [("data", x)]).2 e)) B) "status"
        = oget nb "status" := by
  have hreg : ohas reg e = true := by rw [ohas_isSome, hr]; rfl
  have hrec : getRec reg e = r := by simp [getRec, getDict, hr]
  have hnodesr : getNodes r = nodes := by simp [getNodes, getDict, hn]
  have hhA : ohas nodes A = true := by rw [ohas_isSome, hA]; rfl
  have hhB : ohas nodes B = true := by rw [ohas_isSome, hB]; rfl
  have hsrc : getNodeObj nodes A = na := by simp [getNodeObj, getDict, hA]
  simp only [NodeDataTransferResource.post, hrec, hnodesr, hsrc]
  rw [if_neg (show ¬ ohas [("data", x)] "data" = false by simp [ohas]),
      if_neg (show ¬ ohas reg e = false by simp [hreg]),
      if_neg (show ¬ ohas nodes A = false by simp [hhA]),
      if_neg (show ¬ ohas nodes B = false by simp [hhB])]
  dsimp only
  rw [getRec_oset_self, getNodes_oset_nodes]
  by_cases hAB : B = A
  · subst hAB
    have hnab : na = nb := by
      rw [hA] at hB
      simpa using hB
    rw [getNodeObj_oset_self]
    rw [getNodeObj_oset_self]
    refine ⟨rfl, ?_, ?_, ?_, ?_, ?_, ?_⟩
    · rw [getDict_oset_ne _ _ _ _ (by decide), getDict_oset_self, getNodeObj_oset_self]
      rfl
    · rw [getDict_oset_ne _ _ _ _ (by decide), getDict_oset_self, getNodeObj_oset_self]
      rfl
    · rw [oget_oset_ne _ _ _ _ (by decide), oget_oset_ne _ _ _ _ (by decide)]
    · rw [getDict_oset_self, getNodeObj_oset_self]
      rfl
    · rw [getDict_oset_self, getNodeObj_oset_self]
      rfl
    · rw [oget_oset_ne _ _ _ _ (by decide), oget_oset_ne _ _ _ _ (by decide), hnab]
  · have hAne : A ≠ B := fun h => hAB h.symm
    have htgt : getNodeObj (oset nodes A (Value.vObj
        (oset na "outputs" (Value.vObj (oset (getDict na "outputs") B (Value.vObj
          [("transferId", Value.vStr ("transfer-" ++ natDecimal t)),
           ("timestamp", Value.vStr (isoformat t)),
           ("status", Value.vStr "sent")])))))) B = nb := by
      rw [getNodeObj_oset_ne _ _ _ _ hAB]
      simp [getNodeObj, getDict, hB]
    rw [htgt]
    rw [getNodeObj_oset_self]
    rw [getNodeObj_oset_ne _ _ _ _ hAne, getNodeObj_oset_self]
    refine ⟨rfl, ?_, ?_, ?_, ?_, ?_, ?_⟩
    · rw [getDict_oset_self, getNodeObj_oset_self]
      rfl
    · rw [getDict_oset_self, getNodeObj_oset_self]
      rfl
    · rw [oget_oset_ne _ _ _ _ (by decide)]
    · rw [getDict_oset_self, getNodeObj_oset_self]
      rfl
    · rw [getDict_oset_self, getNodeObj_oset_self]
      rfl
    · rw [oget_oset_ne _ _ _ _ (by decide)]

/-- Witness for C5 at a concrete input. -/
theorem transfer_success_witness :
    (NodeDataTransferResource.post 7
        [("e", Value.vObj [("nodes", Value.vObj
          [("a", Value.vObj [("status", Value.vStr "pending")]),
           ("b", Value.vObj [("status", Value.vStr "pending")])])])]
        "e" "a" "b" [("data", Value.vStr "x")]).1
      = ApiResult.ok (Value.vObj
          [("transferId", Value.vStr ("transfer-" ++ natDecimal 7)),
           ("status", Value.vStr "completed"),
           ("message", Value.vStr ("Data transferred from " ++ "a" ++ " to " ++ "b"))])
    ∧ oget (getNodeObj (getDict (getNodeObj (getNodes (getRec
        (NodeDataTransferResource.post 7
          [("e", Value.vObj [("nodes", Value.vObj
            [("a", Value.vObj [("status", Value.vStr "pending")]),
             ("b", Value.vObj [("status", Value.vStr "pending")])])])]
          "e" "a" "b" [("data", Value.vStr "x")]).2 "e")) "a") "outputs") "b")
        "status" = some (Value.vStr "sent")
    ∧ oget (getNodeObj (getDict (getNodeObj (getNodes (getRec
        (NodeDataTransferResource.post 7
          [("e", Value.vObj [("nodes", Value.vObj
            [("a", Value.vObj [("status", Value.vStr "pending")]),
             ("b", Value.vObj [("status", Value.vStr "pending")])])])]
          "e" "a" "b" [("data", Value.vStr "x")]).2 "e")) "a") "outputs") "b")
        "transferId" = some (Value.vStr ("transfer-" ++ natDecimal 7))
    ∧ oget (getNodeObj (getNodes (getRec
        (NodeDataTransferResource.post 7
          [("e", Value.vObj [("nodes", Value.vObj
            [("a", Value.vObj [("status", Value.vStr "pending")]),
             ("b", Value.vObj [("status", Value.vStr "pending")])])])]
          "e" "a" "b" [("data", Value.vStr "x")]).2 "e")) "a") "status"
        = oget [("status", Value.vStr "pending")] "status"
    ∧ oget (getNodeObj (getDict (getNodeObj (getNodes (getRec
        (NodeDataTransferResource.post 7
          [("e", Value.vObj [("nodes", Value.vObj
            [("a", Value.vObj [("status", Value.vStr "pending")]),
             ("b", Value.vObj [("status", Value.vStr "pending")])])])]
          "e" "a" "b" [("data", Value.vStr "x")]).2 "e")) "b") "inputs") "a")
        "status" = some (Value.vStr "received")
    ∧ oget (getNodeObj (getDict (getNodeObj (getNodes (getRec
        (NodeDataTransferResource.post 7
          [("e", Value.vObj [("nodes", Value.vObj
            [("a", Value.vObj [("status", Value.vStr "pending")]),
             ("b", Value.vObj [("status", Value.vStr "pending")])])])]
          "e" "a" "b" [("data", Value.vStr "x")]).2 "e")) "b") "inputs") "a")
        "data" = some (Value.vStr "x")
    ∧ oget (getNodeObj (getNodes (getRec
        (NodeDataTransferResource.post 7
          [("e", Value.vObj [("nodes", Value.vObj
            [("a", Value.vObj [("status", Value.vStr "pending")]),
             ("b", Value.vObj [("status", Value.vStr "pending")])])])]
          "e" "a" "b" [("data", Value.vStr "x")]).2 "e")) "b") "status"
        = oget [("status", Value.vStr "pending")] "status" :=
  transfer_success 7
    [("e", Value.vObj [("nodes", Value.vObj
      [("a", Value.vObj [("status", Value.vStr "pending")]),
       ("b", Value.vObj [("status", Value.vStr "pending")])])])]
    "e" "a" "b" (Value.vStr "x")
    [("nodes", Value.vObj
      [("a", Value.vObj [("status", Value.vStr "pending")]),
       ("b", Value.vObj [("status", Value.vStr "pending")])])]
    [("a", Value.vObj [("status", Value.vStr "pending")]),
     ("b", Value.vObj [("status", Value.vStr "pending")])]
    [("status", Value.vStr "pending")]
    [("status", Value.vStr "pending")]
    rfl rfl rfl rfl

/-! ### Claim C6 -/

/-- Claim C6: `upsertNodeStatus` errs exactly when `partialData.status` is
absent (and that 400 is its only error); and on a previously unseen
executionId, `upsertNodeStatus(e, n, {status: "pending"})` creates both the
execution record (`status = "running"`, fresh `startTime`) and the node
record for `n`. -/
theorem node_upsert_badrequest_iff_and_creates (t : Nat) (reg : Registry)
    (e n : String) (data : Obj) :
    ((NodeStatusResource.put t reg e n data).1
        = ApiResult.err 400 "Node status is required"
      ↔ ohas data "status" = false)
    ∧ (∀ c m, (NodeStatusResource.put t reg e n data).1 = ApiResult.err c m →
        ohas data "status" = false)
    ∧ (ohas reg e = false →
        oget (getRec (NodeStatusResource.put t reg e n
            [("status", Value.vStr "pending")]).2 e) "status"
          = some (Value.vStr "running")
        ∧ oget (getRec (NodeStatusResource.put t reg e n
            [("status", Value.vStr "pending")]).2 e) "startTime"
          = some (Value.vStr (isoformat t))
        ∧ oget (getNodes (getRec (NodeStatusResource.put t reg e n
            [("status", Value.vStr "pending")]).2 e)) n
          = some (Value.vObj
              [("nodeId", Value.vStr n),
               ("status", Value.vStr "pending"),
               ("lastUpdated", Value.vStr (isoformat t))])) := by
  refine ⟨?_, ?_, ?_⟩
  · by_cases hs : ohas data "status"
    · simp [NodeStatusResource.put, hs]
    · simp only [NodeStatusResource.put, if_neg hs]
      simp only [Bool.not_eq_true] at hs
      simp [hs]
  · intro c m h
    by_cases hs : ohas data "status"
    · simp only [NodeStatusResource.put, if_pos hs] at h
      simp at h
    · simpa using hs
  · intro hfresh
    have hcond : ohas [("status", Value.vStr "pending")] "status" = true := by
      simp [ohas]
    simp only [NodeStatusResource.put, if_pos hcond]
    rw [show ensureExec t reg e = oset reg e (Value.vObj (freshExec e t)) from by
      rw [ensureExec, if_neg (by simp [hfresh])]]
    rw [getRec_oset_self]
    rw [getRec_oset_self]
    have hfn : getNodes (freshExec e t) = [] := by
      simp [getNodes, getDict, freshExec, oget]
    rw [hfn]
    rw [if_neg (show ¬ ohas ([] : Obj) n = true by simp [ohas])]
    rw [show (omerge
        [("nodeId", Value.vStr n),
         ("status", (oget [("status", Value.vStr "pending")] "status").getD (Value.vStr "")),
         ("lastUpdated", Value.vStr (isoformat t))]
        [("status", Value.vStr "pending")]) =
        [("nodeId", Value.vStr n),
         ("status", Value.vStr "pending"),
         ("lastUpdated", Value.vStr (isoformat t))] from by
      simp [omerge, oset, oget]]
    rw [getNodes_oset_nodes]
    refine ⟨?_, ?_, ?_⟩
    · rw [oget_oset_ne _ _ _ _ (by decide)]
      simp [freshExec, oget]
    · rw [oget_oset_ne _ _ _ _ (by decide)]
      simp [freshExec, oget]
    · rw [oget_oset_self]

/-- Witness for C6 at a concrete input. -/
theorem node_upsert_badrequest_iff_and_creates_witness :
    ((NodeStatusResource.put 3 [] "e" "n" []).1
        = ApiResult.err 400 "Node status is required"
      ↔ ohas ([] : Obj) "status" = false)
    ∧ (oget (getRec (NodeStatusResource.put 3 [] "e" "n"
          [("status", Value.vStr "pending")]).2 "e") "status"
        = some (Value.vStr "running")
      ∧ oget (getRec (NodeStatusResource.put 3 [] "e" "n"
          [("status", Value.vStr "pending")]).2 "e") "startTime"
        = some (Value.vStr (isoformat 3))
      ∧ oget (getNodes (getRec (NodeStatusResource.put 3 [] "e" "n"
          [("status", Value.vStr "pending")]).2 "e")) "n"
        = some (Value.vObj
            [("nodeId", Value.vStr "n"),
             ("status", Value.vStr "pending"),
             ("lastUpdated", Value.vStr (isoformat 3))])) :=
  ⟨(node_upsert_badrequest_iff_and_creates 3 [] "e" "n" []).1,
   (node_upsert_badrequest_iff_and_creates 3 [] "e" "n" []).2.2 rfl⟩

/-! ### Claim C7 -/

/-- Claim C7: for an existing execution and node and a valid action
(`approve` / `reject` / `input`, with `data.input` present for `input`),
`applyManualAction` succeeds and fully overwrites the node's `status` and
`userAction` according to the transition table, whatever the node's prior
contents (`nd` is arbitrary: approving an already-rejected node, or
rejecting an already-approved node, takes effect). -/
theorem manual_action_overwrites (t : Nat) (reg : Registry) (e n a : String)
    (data : Obj) (r nodes nd : Obj)
    (hr : oget reg e = some (Value.vObj r))
    (hn : oget r "nodes" = some (Value.vObj nodes))
    (hnd : oget nodes n = some (Value.vObj nd))
    (ha : oget data "action" = some (Value.vStr a))
    (hval : a = "approve" ∨ a = "reject" ∨ a = "input")
    (hinp : a = "input" → ohas data "input" = true) :
    resultField (ManualNodeInteractionResource.post t reg e n data).1 "status"
      = some (Value.vStr "success")
    ∧ (a = "approve" →
        oget (getNodeObj (getNodes (getRec
            (ManualNodeInteractionResource.post t reg e n data).2 e)) n) "status"
          = some (Value.vStr "approved")
        ∧ oget (getDict (getNodeObj (getNodes (getRec
            (ManualNodeInteractionResource.post t reg e n data).2 e)) n) "userAction")
            "type" = some (Value.vStr "approval"))
    ∧ (a = "reject" →
        oget (getNodeObj (getNodes (getRec
            (ManualNodeInteractionResource.post t reg e n data).2 e)) n) "status"
          = some (Value.vStr "rejected")
        ∧ oget (getDict (getNodeObj (getNodes (getRec
            (ManualNodeInteractionResource.post t reg e n data).2 e)) n) "userAction")
            "type" = some (Value.vStr "rejection"))
    ∧ (a = "input" →
        oget (getNodeObj (getNodes (getRec
            (ManualNodeInteractionResource.post t reg e n data).2 e)) n) "status"
          = some (Value.vStr "running")
        ∧ oget (getDict (getNodeObj (getNodes (getRec
            (ManualNodeInteractionResource.post t reg e n data).2 e)) n) "userAction")
            "type" = some (Value.vStr "input")) := by
  have hreg : ohas reg e = true := by rw [ohas_isSome, hr]; rfl
  have hrec : getRec reg e = r := by simp [getRec, getDict, hr]
  have hnodesr : getNodes r = nodes := by simp [getNodes, getDict, hn]
  have hhn : ohas nodes n = true := by rw [ohas_isSome, hnd]; rfl
  have hnode : getNodeObj nodes n = nd := by simp [getNodeObj, getDict, hnd]
  rcases hval with hA | hR | hI
  · subst hA
    simp only [ManualNodeInteractionResource.post, ha, hrec, hnodesr, hnode]
    rw [show strLower "approve" = "approve" from rfl]
    rw [if_neg (by decide), if_neg (by simp [hreg]), if_neg (by simp [hhn]),
      if_pos rfl]
    rw [getRec_oset_self, getNodes_oset_nodes, getNodeObj_oset_self]
    refine ⟨rfl, fun _ => ⟨?_, ?_⟩, fun hh => absurd hh (by decide),
      fun hh => absurd hh (by decide)⟩
    · rw [oget_oset_ne _ _ _ _ (by decide), oget_oset_ne _ _ _ _ (by decide),
        oget_oset_self]
    · rw [getDict_oset_ne _ _ _ _ (by decide), getDict_oset_self]
      rfl
  · subst hR
    simp only [ManualNodeInteractionResource.post, ha, hrec, hnodesr, hnode]
    rw [show strLower "reject" = "reject" from rfl]
    rw [if_neg (by decide), if_neg (by simp [hreg]), if_neg (by simp [hhn]),
      if_neg (by decide), if_pos rfl]
    rw [getRec_oset_self, getNodes_oset_nodes, getNodeObj_oset_self]
    refine ⟨rfl, fun hh => absurd hh (by decide), fun _ => ⟨?_, ?_⟩,
      fun hh => absurd hh (by decide)⟩
    · rw [oget_oset_ne _ _ _ _ (by decide), oget_oset_ne _ _ _ _ (by decide),
        oget_oset_self]
    · rw [getDict_oset_ne _ _ _ _ (by decide), getDict_oset_self]
      rfl
  · subst hI
    simp only [ManualNodeInteractionResource.post, ha, hrec, hnodesr, hnode]
    rw [show strLower "input" = "input" from rfl]
    rw [if_neg (by decide), if_neg (by simp [hreg]), if_neg (by simp [hhn]),
      if_neg (by decide), if_neg (by decide), if_neg (by simp [hinp rfl])]
    rw [getRec_oset_self, getNodes_oset_nodes, getNodeObj_oset_self]
    refine ⟨rfl, fun hh => absurd hh (by decide), fun hh => absurd hh (by decide),
      fun _ => ⟨?_, ?_⟩⟩
    · rw [oget_oset_ne _ _ _ _ (by decide), oget_oset_ne _ _ _ _ (by decide),
        oget_oset_self]
    · rw [getDict_oset_ne _ _ _ _ (by decide), getDict_oset_self]
      rfl

/-- Witness for C7 at a concrete input: approving an already-rejected node. -/
theorem manual_action_overwrites_witness :
    resultField (ManualNodeInteractionResource.post 2
        [("e", Value.vObj [("nodes", Value.vObj
          [("n", Value.vObj [("status", Value.vStr "rejected")])])])]
        "e" "n" [("action", Value.vStr "approve"), ("comment", Value.vStr "ok")]).1
        "status" = some (Value.vStr "success")
    ∧ (("approve" : String) = "approve" →
        oget (getNodeObj (getNodes (getRec
            (ManualNodeInteractionResource.post 2
              [("e", Value.vObj [("nodes", Value.vObj
                [("n", Value.vObj [("status", Value.vStr "rejected")])])])]
              "e" "n" [("action", Value.vStr "approve"), ("comment", Value.vStr "ok")]).2
            "e")) "n") "status" = some (Value.vStr "approved")
        ∧ oget (getDict (getNodeObj (getNodes (getRec
            (ManualNodeInteractionResource.post 2
              [("e", Value.vObj [("nodes", Value.vObj
                [("n", Value.vObj [("status", Value.vStr "rejected")])])])]
              "e" "n" [("action", Value.vStr "approve"), ("comment", Value.vStr "ok")]).2
            "e")) "n") "userAction") "type" = some (Value.vStr "approval"))
    ∧ (("approve" : String) = "reject" →
        oget (getNodeObj (getNodes (getRec
            (ManualNodeInteractionResource.post 2
              [("e", Value.vObj [("nodes", Value.vObj
                [("n", Value.vObj [("status", Value.vStr "rejected")])])])]
              "e" "n" [("action", Value.vStr "approve"), ("comment", Value.vStr "ok")]).2
            "e")) "n") "status" = some (Value.vStr "rejected")
        ∧ oget (getDict (getNodeObj (getNodes (getRec
            (ManualNodeInteractionResource.post 2
              [("e", Value.vObj [("nodes", Value.vObj
                [("n", Value.vObj [("status", Value.vStr "rejected")])])])]
              "e" "n" [("action", Value.vStr "approve"), ("comment", Value.vStr "ok")]).2
            "e")) "n") "userAction") "type" = some (Value.vStr "rejection"))
    ∧ (("approve" : String) = "input" →
        oget (getNodeObj (getNodes (getRec
            (ManualNodeInteractionResource.post 2
              [("e", Value.vObj [("nodes", Value.vObj
                [("n", Value.vObj [("status", Value.vStr "rejected")])])])]
              "e" "n" [("action", Value.vStr "approve"), ("comment", Value.vStr "ok")]).2
            "e")) "n") "status" = some (Value.vStr "running")
        ∧ oget (getDict (getNodeObj (getNodes (getRec
            (ManualNodeInteractionResource.post 2
              [("e", Value.vObj [("nodes", Value.vObj
                [("n", Value.vObj [("status", Value.vStr "rejected")])])])]
              "e" "n" [("action", Value.vStr "approve"), ("comment", Value.vStr "ok")]).2
            "e")) "n") "userAction") "type" = some (Value.vStr "input")) :=
  manual_action_overwrites 2
    [("e", Value.vObj [("nodes", Value.vObj
      [("n", Value.vObj [("status", Value.vStr "rejected")])])])]
    "e" "n" "approve"
    [("action", Value.vStr "approve"), ("comment", Value.vStr "ok")]
    [("nodes", Value.vObj [("n", Value.vObj [("status", Value.vStr "rejected")])])]
    [("n", Value.vObj [("status", Value.vStr "rejected")])]
    [("status", Value.vStr "rejected")]
    rfl rfl rfl rfl (Or.inl rfl) (fun h => absurd h (by decide))

/-! ### Claim C8 -/

/-- Any successful `transferData` call at logical second `t` returns the
transferId `"transfer-" ++ natDecimal t` (the f-string of line 201). -/
theorem transfer_ok_id (t : Nat) (reg : Registry) (e s g : String) (d o : Obj)
    (h : (NodeDataTransferResource.post t reg e s g d).1 = ApiResult.ok (Value.vObj o)) :
    oget o "transferId" = some (Value.vStr ("transfer-" ++ natDecimal t)) := by
  simp only [NodeDataTransferResource.post] at h
  by_cases c1 : ohas d "data" = false
  · rw [if_pos c1] at h
    simp at h
  · rw [if_neg c1] at h
    by_cases c2 : ohas reg e = false
    · rw [if_pos c2] at h
      simp at h
    · rw [if_neg c2] at h
      by_cases c3 : ohas (getNodes (getRec reg e)) s = false
      · rw [if_pos c3] at h
        simp at h
      · rw [if_neg c3] at h
        by_cases c4 : ohas (getNodes (getRec reg e)) g = false
        · rw [if_pos c4] at h
          simp at h
        · rw [if_neg c4] at h
          simp only [Prod.fst, ApiResult.ok.injEq, Value.vObj.injEq] at h
          rw [← h]
          rfl

/-- Claim C8, counterexample: two successful `transferData` calls within the
same integer second return the SAME `transferId` (`transfer-7` twice), since
the id is `f"transfer-{int(time.time())}"`. -/
theorem transfer_id_collision_cex :
    resultField (NodeDataTransferResource.post 7
        [("e", Value.vObj [("nodes", Value.vObj
          [("a", Value.vObj [("status", Value.vStr "pending")]),
           ("b", Value.vObj [("status", Value.vStr "pending")])])])]
        "e" "a" "b" [("data", Value.vStr "x")]).1 "transferId"
      = some (Value.vStr "transfer-7")
    ∧ resultField (NodeDataTransferResource.post 7
        (NodeDataTransferResource.post 7
          [("e", Value.vObj [("nodes", Value.vObj
            [("a", Value.vObj [("status", Value.vStr "pending")]),
             ("b", Value.vObj [("status", Value.vStr "pending")])])])]
          "e" "a" "b" [("data", Value.vStr "x")]).2
        "e" "a" "b" [("data", Value.vStr "y")]).1 "transferId"
      = some (Value.vStr "transfer-7") :=
  ⟨rfl, rfl⟩

/-- Claim C8 as amended: two successful `transferData` calls whose (integer
second) timestamps differ return distinct transferIds; within the same
second the ids collide (see the counterexample), exactly as §9 of the spec
warns. -/
theorem transfer_ids_distinct_across_seconds (t1 t2 : Nat) (reg1 reg2 : Registry)
    (e1 s1 g1 e2 s2 g2 : String) (d1 d2 o1 o2 : Obj) (i1 i2 : String)
    (h1 : (NodeDataTransferResource.post t1 reg1 e1 s1 g1 d1).1
        = ApiResult.ok (Value.vObj o1))
    (hi1 : oget o1 "transferId" = some (Value.vStr i1))
    (h2 : (NodeDataTransferResource.post t2 reg2 e2 s2 g2 d2).1
        = ApiResult.ok (Value.vObj o2))
    (hi2 : oget o2 "transferId" = some (Value.vStr i2))
    (ht : t1 ≠ t2) : i1 ≠ i2 := by
  intro hEq
  have e1' := transfer_ok_id t1 reg1 e1 s1 g1 d1 o1 h1
  have e2' := transfer_ok_id t2 reg2 e2 s2 g2 d2 o2 h2
  rw [hi1] at e1'
  rw [hi2] at e2'
  have hv1 : i1 = "transfer-" ++ natDecimal t1 := by simpa using e1'
  have hv2 : i2 = "transfer-" ++ natDecimal t2 := by simpa using e2'
  rw [hv1, hv2] at hEq
  exact ht (natDecimal_inj t1 t2 (string_append_left_cancel _ _ _ hEq))

/-- Witness for the amended C8 theorem at a concrete input. -/
theorem transfer_ids_distinct_across_seconds_witness :
    ("transfer-7" : String) ≠ "transfer-8" :=
  transfer_ids_distinct_across_seconds 7 8
    [("e", Value.vObj [("nodes", Value.vObj
      [("a", Value.vObj [("status", Value.vStr "pending")]),
       ("b", Value.vObj [("status", Value.vStr "pending")])])])]
    [("e", Value.vObj [("nodes", Value.vObj
      [("a", Value.vObj [("status", Value.vStr "pending")]),
       ("b", Value.vObj [("status", Value.vStr "pending")])])])]
    "e" "a" "b" "e" "a" "b"
    [("data", Value.vStr "x")] [("data", Value.vStr "x")]
    [("transferId", Value.vStr "transfer-7"),
     ("status", Value.vStr "completed"),
     ("message", Value.vStr "Data transferred from a to b")]
    [("transferId", Value.vStr "transfer-8"),
     ("status", Value.vStr "completed"),
     ("message", Value.vStr "Data transferred from a to b")]
    "transfer-7" "transfer-8"
    rfl rfl rfl rfl (by decide)

/-! ### Claim C9 -/

/-- Through the node-bulk loop, a pre-existing node keeps its `lastUpdated`
value as long as none of its entries in the loop's input carries a
`lastUpdated` key. -/
theorem applyNodeBulk_keeps_lastUpdated (t : Nat) (ents : Obj) :
    ∀ (acc : Obj) (nid : String) (m : Obj),
    oget acc nid = some (Value.vObj m) →
    (∀ o, (nid, Value.vObj o) ∈ ents → ohas o "lastUpdated" = false) →
    ∃ m2, oget (applyNodeBulk t acc ents) nid = some (Value.vObj m2)
      ∧ oget m2 "lastUpdated" = oget m "lastUpdated" := by
  induction ents with
  | nil =>
    intro acc nid m hm _
    exact ⟨m, hm, rfl⟩
  | cons q rest ih =>
    intro acc nid m hm hents
    obtain ⟨k1, v1⟩ := q
    have htail : ∀ o, (nid, Value.vObj o) ∈ rest → ohas o "lastUpdated" = false :=
      fun o ho => hents o (List.mem_cons_of_mem _ ho)
    cases v1 with
    | vStr s =>
      have hstep : applyNodeBulk t acc ((k1, Value.vStr s) :: rest)
          = applyNodeBulk t acc rest := rfl
      rw [hstep]
      exact ih acc nid m hm htail
    | vNat k =>
      have hstep : applyNodeBulk t acc ((k1, Value.vNat k) :: rest)
          = applyNodeBulk t acc rest := rfl
      rw [hstep]
      exact ih acc nid m hm htail
    | vObj nd =>
      by_cases hk : k1 = nid
      · subst hk
        have hohas : ohas acc k1 = true := by rw [ohas_isSome, hm]; rfl
        have hstep : applyNodeBulk t acc ((k1, Value.vObj nd) :: rest)
            = applyNodeBulk t (oset acc k1 (Value.vObj (omerge m nd))) rest := by
          simp [applyNodeBulk, hohas, hm]
        rw [hstep]
        have hlu : oget (omerge m nd) "lastUpdated" = oget m "lastUpdated" :=
          oget_omerge_not_has _ _ _ (hents nd (List.mem_cons_self _ _))
        obtain ⟨m2, hm2, hl2⟩ := ih (oset acc k1 (Value.vObj (omerge m nd))) k1
          (omerge m nd) (oget_oset_self _ _ _) htail
        exact ⟨m2, hm2, hl2.trans hlu⟩
      · have hne : nid ≠ k1 := Ne.symm hk
        by_cases hohas : ohas acc k1 = true
        · cases hg : oget acc k1 with
          | none =>
            have hstep : applyNodeBulk t acc ((k1, Value.vObj nd) :: rest)
                = applyNodeBulk t acc rest := by
              simp [applyNodeBulk, hohas, hg]
            rw [hstep]
            exact ih acc nid m hm htail
          | some w =>
            cases w with
            | vObj old =>
              have hstep : applyNodeBulk t acc ((k1, Value.vObj nd) :: rest)
                  = applyNodeBulk t (oset acc k1 (Value.vObj (omerge old nd))) rest := by
                simp [applyNodeBulk, hohas, hg]
              rw [hstep]
              exact ih _ nid m (by rw [oget_oset_ne _ _ _ _ hne]; exact hm) htail
            | vStr s2 =>
              have hstep : applyNodeBulk t acc ((k1, Value.vObj nd) :: rest)
                  = applyNodeBulk t acc rest := by
                simp [applyNodeBulk, hohas, hg]
              rw [hstep]
              exact ih acc nid m hm htail
            | vNat k2 =>
              have hstep : applyNodeBulk t acc ((k1, Value.vObj nd) :: rest)
                  = applyNodeBulk t acc rest := by
                simp [applyNodeBulk, hohas, hg]
              rw [hstep]
              exact ih acc nid m hm htail
        · have hstep : applyNodeBulk t acc ((k1, Value.vObj nd) :: rest)
              = applyNodeBulk t (oset acc k1 (Value.vObj (omerge
                  [("nodeId", Value.vStr k1),
                   ("status", (oget nd "status").getD (Value.vStr "pending")),
                   ("lastUpdated", Value.vStr (isoformat t))]
                  nd))) rest := by
            simp [applyNodeBulk, hohas]
          rw [hstep]
          exact ih _ nid m (by rw [oget_oset_ne _ _ _ _ hne]; exact hm) htail

/-- Claim C9: when `upsertExecutionState`'s `partialData.nodes` addresses an
already-existing node and that node's partial data carries no `lastUpdated`
key, the node's `lastUpdated` value is unchanged by the call (the bulk path
does not stamp existing nodes). -/
theorem bulk_update_keeps_lastUpdated (t : Nat) (reg : Registry) (e nid : String)
    (data ents : Obj) (r nodes m : Obj)
    (hr : oget reg e = some (Value.vObj r))
    (hn : oget r "nodes" = some (Value.vObj nodes))
    (hm : oget nodes nid = some (Value.vObj m))
    (hd : oget data "nodes" = some (Value.vObj ents))
    (hents : ∀ o, (nid, Value.vObj o) ∈ ents → ohas o "lastUpdated" = false) :
    ∃ m2, oget (getNodes (getRec (ExecutionStateResource.put t reg e data).2 e)) nid
        = some (Value.vObj m2)
      ∧ oget m2 "lastUpdated" = oget m "lastUpdated" := by
  have hreg : ohas reg e = true := by rw [ohas_isSome, hr]; rfl
  have hrec : getRec reg e = r := by simp [getRec, getDict, hr]
  simp only [ExecutionStateResource.put, if_pos hreg, hrec, hd]
  rw [getRec_oset_self, getNodes_oset_nodes, getRec_oset_self]
  have hc1 : oget (match oget data "status" with
      | some v => oset r "status" v
      | none => r) "nodes" = some (Value.vObj nodes) := by
    cases oget data "status" with
    | none => exact hn
    | some v => rw [oget_oset_ne _ _ _ _ (by decide)]; exact hn
  have hc2 : oget (if completedOrFailed data then
        oset (match oget data "status" with
          | some v => oset r "status" v
          | none => r) "endTime" (Value.vStr (isoformat t))
      else
        match oget data "status" with
        | some v => oset r "status" v
        | none => r) "nodes" = some (Value.vObj nodes) := by
    by_cases hc : completedOrFailed data
    · rw [if_pos hc, oget_oset_ne _ _ _ _ (by decide)]; exact hc1
    · rw [if_neg hc]; exact hc1
  have hn2 : getNodes (omergeExceptNodes (if completedOrFailed data then
        oset (match oget data "status" with
          | some v => oset r "status" v
          | none => r) "endTime" (Value.vStr (isoformat t))
      else
        match oget data "status" with
        | some v => oset r "status" v
        | none => r) data) = nodes := by
    simp [getNodes, getDict, oget_omen_nodes, hc2]
  rw [hn2]
  exact applyNodeBulk_keeps_lastUpdated t ents nodes nid m hm hents

/-- Witness for C9 at a concrete input. -/
theorem bulk_update_keeps_lastUpdated_witness :
    ∃ m2, oget (getNodes (getRec (ExecutionStateResource.put 9
        [("e", Value.vObj [("nodes", Value.vObj
          [("n", Value.vObj [("lastUpdated", Value.vStr "OLD")])])])]
        "e" [("nodes", Value.vObj [("n", Value.vObj
          [("status", Value.vStr "done")])])]).2 "e")) "n"
        = some (Value.vObj m2)
      ∧ oget m2 "lastUpdated"
        = oget [("lastUpdated", Value.vStr "OLD")] "lastUpdated" :=
  bulk_update_keeps_lastUpdated 9
    [("e", Value.vObj [("nodes", Value.vObj
      [("n", Value.vObj [("lastUpdated", Value.vStr "OLD")])])])]
    "e" "n"
    [("nodes", Value.vObj [("n", Value.vObj [("status", Value.vStr "done")])])]
    [("n", Value.vObj [("status", Value.vStr "done")])]
    [("nodes", Value.vObj [("n", Value.vObj [("lastUpdated", Value.vStr "OLD")])])]
    [("n", Value.vObj [("lastUpdated", Value.vStr "OLD")])]
    [("lastUpdated", Value.vStr "OLD")]
    rfl rfl rfl rfl
    (by
      intro o ho
      simp at ho
      subst ho
      rfl)

/-! ### Claim C10 -/

/-- Claim C10: `upsertNodeStatus` stamps `lastUpdated` asymmetrically.  For a
node that already exists (after the lazy execution creation), the stamp
`lastUpdated = now` is written after the merge, so the final value is the
fresh timestamp whatever `partialData` contained; for a node that is newly
created, `partialData` is merged after the defaults, so a caller-supplied
`lastUpdated` (or `nodeId`) overrides the stamped timestamp (or the
path-derived nodeId). -/
theorem node_upsert_lastupdated_asymmetry (t : Nat) (reg : Registry)
    (e n : String) (data : Obj)
    (hs : ohas data "status" = true)
    (hnodup : (data.map Prod.fst).Nodup) :
    (ohas (getNodes (getRec (ensureExec t reg e) e)) n = true →
      ∃ m2, oget (getNodes (getRec (NodeStatusResource.put t reg e n data).2 e)) n
          = some (Value.vObj m2)
        ∧ oget m2 "lastUpdated" = some (Value.vStr (isoformat t)))
    ∧ (ohas (getNodes (getRec (ensureExec t reg e) e)) n = false →
      (∀ v, oget data "lastUpdated" = some v →
        ∃ m2, oget (getNodes (getRec (NodeStatusResource.put t reg e n data).2 e)) n
            = some (Value.vObj m2)
          ∧ oget m2 "lastUpdated" = some v)
      ∧ (∀ w, oget data "nodeId" = some w →
        ∃ m2, oget (getNodes (getRec (NodeStatusResource.put t reg e n data).2 e)) n
            = some (Value.vObj m2)
          ∧ oget m2 "nodeId" = some w)) := by
  simp only [NodeStatusResource.put, if_pos hs]
  rw [getRec_oset_self, getNodes_oset_nodes]
  constructor
  · intro hex
    refine ⟨_, oget_oset_self _ _ _, ?_⟩
    rw [if_pos hex]
    exact oget_oset_self _ _ _
  · intro hnx
    constructor
    · intro v hv
      refine ⟨_, oget_oset_self _ _ _, ?_⟩
      rw [if_neg (by simp [hnx])]
      exact oget_omerge_nodup _ _ _ _ hnodup hv
    · intro w hw
      refine ⟨_, oget_oset_self _ _ _, ?_⟩
      rw [if_neg (by simp [hnx])]
      exact oget_omerge_nodup _ _ _ _ hnodup hw

/-- Witness for C10 at a concrete input. -/
theorem node_upsert_lastupdated_asymmetry_witness :
    (ohas (getNodes (getRec (ensureExec 1
        [("e", Value.vObj [("nodes", Value.vObj
          [("n", Value.vObj [("lastUpdated", Value.vStr "OLD")])])])] "e") "e")) "n" = true →
      ∃ m2, oget (getNodes (getRec (NodeStatusResource.put 1
          [("e", Value.vObj [("nodes", Value.vObj
            [("n", Value.vObj [("lastUpdated", Value.vStr "OLD")])])])] "e" "n"
          [("status", Value.vStr "x"), ("lastUpdated", Value.vStr "NEW"),
           ("nodeId", Value.vStr "ND")]).2 "e")) "n"
          = some (Value.vObj m2)
        ∧ oget m2 "lastUpdated" = some (Value.vStr (isoformat 1)))
    ∧ (ohas (getNodes (getRec (ensureExec 1
        [("e", Value.vObj [("nodes", Value.vObj
          [("n", Value.vObj [("lastUpdated", Value.vStr "OLD")])])])] "e") "e")) "n" = false →
      (∀ v, oget [("status", Value.vStr "x"), ("lastUpdated", Value.vStr "NEW"),
          ("nodeId", Value.vStr "ND")] "lastUpdated" = some v →
        ∃ m2, oget (getNodes (getRec (NodeStatusResource.put 1
            [("e", Value.vObj [("nodes", Value.vObj
              [("n", Value.vObj [("lastUpdated", Value.vStr "OLD")])])])] "e" "n"
            [("status", Value.vStr "x"), ("lastUpdated", Value.vStr "NEW"),
             ("nodeId", Value.vStr "ND")]).2 "e")) "n"
            = some (Value.vObj m2)
          ∧ oget m2 "lastUpdated" = some v)
      ∧ (∀ w, oget [("status", Value.vStr "x"), ("lastUpdated", Value.vStr "NEW"),
          ("nodeId", Value.vStr "ND")] "nodeId" = some w →
        ∃ m2, oget (getNodes (getRec (NodeStatusResource.put 1
            [("e", Value.vObj [("nodes", Value.vObj
              [("n", Value.vObj [("lastUpdated", Value.vStr "OLD")])])])] "e" "n"
            [("status", Value.vStr "x"), ("lastUpdated", Value.vStr "NEW"),
             ("nodeId", Value.vStr "ND")]).2 "e")) "n"
            = some (Value.vObj m2)
          ∧ oget m2 "nodeId" = some w)) :=
  node_upsert_lastupdated_asymmetry 1
    [("e", Value.vObj [("nodes", Value.vObj
      [("n", Value.vObj [("lastUpdated", Value.vStr "OLD")])])])]
    "e" "n"
    [("status", Value.vStr "x"), ("lastUpdated", Value.vStr "NEW"),
     ("nodeId", Value.vStr "ND")]
    rfl (by decide)
